import Mathlib

/-!
# Verification of the OpenUSD scene-tool core

A shallow embedding of the scene-graph query and mesh-export engine in
`src/openusd_mcp/tools.py`, together with theorems settling the spec claims.

Modelling conventions:
* A USD stage is a `Doc`: a list of root prims, each `Prim` carrying the data
  the tools read (type name, geometry attributes, variant sets, surface
  connections) plus its children.
* Backing file storage is a map from path strings to file contents; tools
  open the document from the store and (only where the Python code writes)
  return an updated store.
* Point coordinates are idealised as real numbers; the external `Gf` vector
  library used by the export (cross product, length, normalisation) is
  modelled by exact real arithmetic.
* `struct.pack` of three little-endian floats is an abstract 12-byte encoder
  passed as a parameter; byte-layout claims are proved for every such encoder.
* Python dict results are structures; the error-dict convention is `Except`
  with a structured `Err` carrying the data the message interpolates.
-/

namespace OpenUSDMCP

/-- Coordinates of one point, idealised over the reals. -/
abbrev Vec3 := ℝ × ℝ × ℝ

/-- One triangle of vertex indices, as produced by the fan triangulation. -/
abbrev Tri := ℕ × ℕ × ℕ

/-- A variant set as stored on a prim: name, option list, and the persisted
selection (the empty string standing for no selection, as in USD). -/
structure VSet where
  name : String
  options : List String
  selected : String
deriving DecidableEq, Repr

/-- A shader prim connected to a material surface output: its path and its
inputs (input base name paired with the formatted value when set). -/
structure ShaderSrc where
  path : String
  inputs : List (String × Option String)
deriving DecidableEq, Repr

/-- The per-prim data the tools read. Geometry attributes are `none` when
unauthored, mirroring `attr.Get()` returning `None`. -/
structure PrimData where
  name : String
  typeName : String
  points : Option (List Vec3)
  faceVertexCounts : Option (List ℕ)
  faceVertexIndices : Option (List ℕ)
  variantSets : List VSet
  surfaceSources : List ShaderSrc
  xformable : Bool

/-- A prim: its data plus its children in authored order. -/
inductive Prim where
  | node : PrimData → List Prim → Prim

/-- The data carried at a prim. -/
def Prim.dat : Prim → PrimData
  | .node d _ => d

/-- The children of a prim, in authored order. -/
def Prim.children : Prim → List Prim
  | .node _ cs => cs

/-- A document (stage): the children of the pseudo-root. -/
structure Doc where
  roots : List Prim

/-- String constants used by the tools (kept as named definitions). -/
def slash : String := "/"

def emptyStr : String := ""

def meshTag : String := "Mesh"

def materialTag : String := "Material"

def objFmt : String := "obj"

def stlFmt : String := "stl"

def okStatus : String := "ok"

/-- Find the child with a given name, as path resolution does. -/
def findChild (ps : List Prim) (n : String) : Option Prim :=
  ps.find? (fun c => c.dat.name == n)

/-- Walk a non-empty segment list through successive child lists. -/
def resolveSegs : List Prim → List String → Option Prim
  | ps, [s] => findChild ps s
  | ps, s :: rest =>
      match findChild ps s with
      | some c => resolveSegs c.children rest
      | none => none
  | _, [] => none

/-- The path separator character. -/
def slashChar : Char := '/'

/-- Split a character list at every slash (the groups between slashes). -/
def splitChar : List Char → List (List Char)
  | [] => [[]]
  | c :: rest =>
      match splitChar rest with
      | [] => [[c]]
      | g :: gs => if c == slashChar then [] :: g :: gs else (c :: g) :: gs

/-- The path segments of a slash-delimited prim path (the non-empty groups
between slashes), modelling how `GetPrimAtPath` addresses prims. -/
def pathSegs (p : String) : List String :=
  ((splitChar p.toList).map (fun g => String.mk g)).filter (fun s => s != emptyStr)

/-- The canonical absolute path spelled by a segment list. -/
def canonPath (segs : List String) : String :=
  segs.foldl (fun a s => a ++ slash ++ s) emptyStr

/-- Model of `stage.GetPrimAtPath`: resolve an absolute path to a prim (paired with
its canonical path, which is what `prim.GetPath()` prints). -/
def resolveP (d : Doc) (p : String) : Option (String × Prim) :=
  (resolveSegs d.roots (pathSegs p)).map (fun pr => (canonPath (pathSegs p), pr))

/-- Fan triangles of the face starting at flat-index `idx` with `count`
vertices: the loop `for i in range(1, count - 1)` emitting
`(fvi[idx], fvi[idx+i], fvi[idx+i+1])`. -/
def fanAt (idxs : List ℕ) (idx count : ℕ) : List Tri :=
  (List.range (count - 2)).map
    (fun j => (idxs.getD idx 0, idxs.getD (idx + j + 1) 0, idxs.getD (idx + j + 2) 0))

/-- The triangulation loop over the face-count list, threading the flat
offset `idx` exactly as the Python loop does (`idx += count`). -/
def triAux : List ℕ → List ℕ → ℕ → List Tri
  | [], _, _ => []
  | c :: cs, idxs, idx => fanAt idxs idx c ++ triAux cs idxs (idx + c)

/-- Fan triangulation of a mesh given its face-vertex counts and the flat
face-vertex index list, as in `export_mesh`. -/
def triangulate (counts idxs : List ℕ) : List Tri :=
  triAux counts idxs 0

/-- Spec-side view: the per-face slices of the flat index list. -/
def faceSlices : List ℕ → List ℕ → List (List ℕ)
  | [], _ => []
  | c :: cs, idxs => idxs.take c :: faceSlices cs (idxs.drop c)

/-- Spec-side view: the fan triangles of one face given by its own vertex
index list `[v0, v1, ..., v(n-1)]`: `(v0, v1, v2), (v0, v2, v3), ...`. -/
def fanFace (vs : List ℕ) : List Tri :=
  (List.range (vs.length - 2)).map
    (fun j => (vs.getD 0 0, vs.getD (j + 1) 0, vs.getD (j + 2) 0))

mutual

/-- Depth-first enumeration of a prim and its descendants, paired with their
canonical paths (`stage.Traverse()` order; the pseudo-root is not yielded). -/
def preorderP : String → Prim → List (String × Prim)
  | par, .node dt cs => (par ++ slash ++ dt.name, .node dt cs) :: preorderListP (par ++ slash ++ dt.name) cs

/-- Depth-first enumeration of a prim list (see `preorderP`). -/
def preorderListP : String → List Prim → List (String × Prim)
  | _, [] => []
  | par, p :: ps => preorderP par p ++ preorderListP par ps

end

/-- Model of `stage.Traverse()`: every prim on the stage with its path; the
pseudo-root itself is not included. -/
def traverseP (d : Doc) : List (String × Prim) :=
  preorderListP emptyStr d.roots

/-- One node of the nested `inspect_scene` output: path, type name, the
optional `faces` field, and the children ( `[]` when the key is omitted). -/
inductive NodeInfo where
  | mk : String → String → Option ℕ → List NodeInfo → NodeInfo

mutual

/-- The `_walk` helper of `inspect_scene` on one prim. -/
def walkPrim : String → Prim → NodeInfo
  | par, .node dt cs =>
      .mk (par ++ slash ++ dt.name) dt.typeName
        (if dt.typeName == meshTag then
          match dt.faceVertexCounts with
          | some fc => if fc.isEmpty then none else some fc.length
          | none => none
        else none)
        (walkList (par ++ slash ++ dt.name) cs)

/-- The `_walk` helper mapped over a child list. -/
def walkList : String → List Prim → List NodeInfo
  | _, [] => []
  | par, p :: ps => walkPrim par p :: walkList par ps

end

/-- Model of `inspect_scene`: the nested output for the pseudo-root's children. -/
def inspectScene (d : Doc) : List NodeInfo :=
  walkList emptyStr d.roots

mutual

/-- Number of nodes reported in one nested `inspect_scene` node. -/
def countNode : NodeInfo → ℕ
  | .mk _ _ _ cs => 1 + countList cs

/-- Number of nodes reported in a nested `inspect_scene` node list. -/
def countList : List NodeInfo → ℕ
  | [] => 0
  | n :: ns => countNode n + countList ns

end

/-- The counters accumulated by `scene_stats`. -/
structure Stats where
  prim_count : ℕ
  mesh_count : ℕ
  material_count : ℕ
  total_faces : ℕ
deriving DecidableEq, Repr

/-- One iteration of the `scene_stats` traversal loop. -/
def statsStep (s : Stats) (p : Prim) : Stats :=
  let s := { s with prim_count := s.prim_count + 1 }
  if p.dat.typeName == meshTag then
    match p.dat.faceVertexCounts with
    | some fc =>
        if fc.isEmpty then { s with mesh_count := s.mesh_count + 1 }
        else { s with mesh_count := s.mesh_count + 1, total_faces := s.total_faces + fc.length }
    | none => { s with mesh_count := s.mesh_count + 1 }
  else if p.dat.typeName == materialTag then
    { s with material_count := s.material_count + 1 }
  else s

/-- The counting part of `scene_stats`: fold the loop over the traversal. -/
def sceneStats (d : Doc) : Stats :=
  (traverseP d).foldl (fun s pp => statsStep s pp.2) ⟨0, 0, 0, 0⟩

/-- One entry of the `get_materials` output. `shader` and `params` are the
optional dict keys, set only inside the connected-sources loop. -/
structure MatEntry where
  path : String
  shader : Option String
  params : Option (List (String × String))
deriving DecidableEq, Repr

/-- The shader-parameter dict: every input whose value is set. -/
def shaderParams (s : ShaderSrc) : List (String × String) :=
  s.inputs.filterMap (fun nv => nv.2.map (fun v => (nv.1, v)))

/-- Build one material entry: start from the path-only dict, then let the
loop over connected sources overwrite the `shader` and `params` keys. -/
def matEntry (path : String) (sources : List ShaderSrc) : MatEntry :=
  sources.foldl
    (fun e src => { e with shader := some src.path, params := some (shaderParams src) })
    ⟨path, none, none⟩

/-- Model of `get_materials`: one entry per Material-typed prim, in traversal order. -/
def getMaterials (d : Doc) : List MatEntry :=
  (traverseP d).filterMap
    (fun pp =>
      if pp.2.dat.typeName == materialTag then
        some (matEntry pp.1 pp.2.dat.surfaceSources)
      else none)

/-- One entry of the `get_transforms` output; the matrices are the printed
forms produced by the external transform library. -/
structure XformEntry where
  path : String
  local_transform : String
  world_transform : String
deriving DecidableEq, Repr

/-- The `get_transforms` success payload. -/
structure TransformsOut where
  transforms : List XformEntry
deriving DecidableEq, Repr

/-- Structured error results; each constructor carries the data interpolated
into the corresponding Python error message. -/
inductive Err where
  | notFound (path : String)
  | invalidDocument (path : String)
  | primNotFound (primPath : String)
  | variantSetNotFound (setName : String)
  | variantNotFound (variant : String) (available : List String)
  | notAMesh (primPath : String)
  | emptyGeometry
deriving DecidableEq, Repr

/-- Contents of one backing file: a parsed scene document, raw bytes, or
text. -/
inductive FileContent where
  | usd : Doc → FileContent
  | bin : List ℕ → FileContent
  | txt : String → FileContent

/-- The backing storage: path to file contents. -/
def Store := String → Option FileContent

/-- Write one file into the store. -/
def Store.put (st : Store) (k : String) (v : FileContent) : Store :=
  fun x => if x == k then some v else st x

/-- Model of `_open_stage`: missing file is `NotFound`, unparsable is
`InvalidDocument`, otherwise the document. -/
def openStage (st : Store) (p : String) : Except Err Doc :=
  match st p with
  | none => .error (.notFound p)
  | some (.usd d) => .ok d
  | some _ => .error (.invalidDocument p)

/-- Model of `get_transforms`, parameterised by the external library's printed local
and world matrices (functions of the prim path). With an explicit prim path
the code wraps `GetPrimAtPath` in a singleton list and the loop skips the
invalid prim, so a non-resolving path yields an empty success payload. -/
def getTransforms (lt wt : String → String) (st : Store) (path : String)
    (primPath : Option String) : Except Err TransformsOut :=
  match openStage st path with
  | .error e => .error e
  | .ok d =>
      match primPath with
      | some pp =>
          match resolveP d pp with
          | some qpr => .ok ⟨[⟨qpr.1, lt qpr.1, wt qpr.1⟩]⟩
          | none => .ok ⟨[]⟩
      | none =>
          .ok ⟨(traverseP d).filterMap
            (fun qpr =>
              if qpr.2.dat.xformable then some ⟨qpr.1, lt qpr.1, wt qpr.1⟩ else none)⟩

/-- One prim's entry in the `list_variants` output. -/
structure VariantsEntry where
  path : String
  variant_sets : List VSet
deriving DecidableEq, Repr

/-- Model of `list_variants`: every prim owning at least one variant set, with each
set's name, options and current selection. -/
def listVariants (st : Store) (path : String) : Except Err (List VariantsEntry) :=
  match openStage st path with
  | .error e => .error e
  | .ok d =>
      .ok ((traverseP d).filterMap
        (fun qpr =>
          if qpr.2.dat.variantSets.isEmpty then none
          else some ⟨qpr.1, qpr.2.dat.variantSets⟩))

/-- Overwrite the selection of the named variant set in a set list. -/
def updateVSets (vss : List VSet) (vsName v : String) : List VSet :=
  vss.map (fun s => if s.name == vsName then { s with selected := v } else s)

/-- Effect of `SetVariantSelection` on the in-memory stage: rebuild the prim forest
with the selection at the addressed prim overwritten. -/
def selectSegs : List Prim → List String → String → String → List Prim
  | ps, [s], vsName, v =>
      ps.map
        (fun c =>
          if c.dat.name == s then
            .node { c.dat with variantSets := updateVSets c.dat.variantSets vsName v } c.children
          else c)
  | ps, s :: rest, vsName, v =>
      ps.map
        (fun c =>
          if c.dat.name == s then .node c.dat (selectSegs c.children rest vsName v) else c)
  | ps, [], _, _ => ps

/-- The `set_variant` success payload. -/
structure SetVariantOk where
  path : String
  variant_set : String
  selected : String
  status : String
deriving DecidableEq, Repr

/-- Model of `set_variant`: validate prim, set and variant in order, then select.
`SetVariantSelection` mutates only the in-memory stage; the function returns
without saving the layer, so the store comes back unchanged and the updated
stage is dropped. -/
def setVariant (st : Store) (path primPath vsName v : String) :
    Except Err SetVariantOk × Store :=
  match openStage st path with
  | .error e => (.error e, st)
  | .ok d =>
      match resolveP d primPath with
      | none => (.error (.primNotFound primPath), st)
      | some qpr =>
          match qpr.2.dat.variantSets.find? (fun s => s.name == vsName) with
          | none => (.error (.variantSetNotFound vsName), st)
          | some vs =>
              if v ∈ vs.options then
                let _memStage : Doc := ⟨selectSegs d.roots (pathSegs primPath) vsName v⟩
                (.ok ⟨primPath, vsName, v, okStatus⟩, st)
              else (.error (.variantNotFound v vs.options), st)

/-- Componentwise difference of two vectors (`p1 - p0`). -/
noncomputable def vsub (a b : Vec3) : Vec3 :=
  (a.1 - b.1, a.2.1 - b.2.1, a.2.2 - b.2.2)

/-- Cross product (`^` on `Gf.Vec3f`). -/
noncomputable def cross (a b : Vec3) : Vec3 :=
  (a.2.1 * b.2.2 - a.2.2 * b.2.1,
   a.2.2 * b.1 - a.1 * b.2.2,
   a.1 * b.2.1 - a.2.1 * b.1)

/-- Squared Euclidean length. -/
noncomputable def sqLen (a : Vec3) : ℝ :=
  a.1 ^ 2 + a.2.1 ^ 2 + a.2.2 ^ 2

/-- Model of `GetLength`: Euclidean length, idealised over the reals. -/
noncomputable def len3 (a : Vec3) : ℝ :=
  Real.sqrt (sqLen a)

/-- Scalar multiple of a vector. -/
noncomputable def vscale (c : ℝ) (a : Vec3) : Vec3 :=
  (c * a.1, c * a.2.1, c * a.2.2)

/-- The zero vector. -/
noncomputable def zeroV : Vec3 := (0, 0, 0)

/-- The face normal written per triangle: the cross product of
`(p1 - p0)` and `(p2 - p0)`, normalised (`GetNormalized`, idealised as
division by the length) only when its length is positive. -/
noncomputable def stlNormal (p0 p1 p2 : Vec3) : Vec3 :=
  let n := cross (vsub p1 p0) (vsub p2 p0)
  if 0 < len3 n then vscale (1 / len3 n) n else n

/-- Bytes of `struct.pack` for a little-endian unsigned 16-bit value. -/
def u16le (n : ℕ) : List ℕ := [n % 256, n / 256 % 256]

/-- Bytes of `struct.pack` for a little-endian unsigned 32-bit value. -/
def u32le (n : ℕ) : List ℕ :=
  [n % 256, n / 256 % 256, n / 65536 % 256, n / 16777216 % 256]

/-- Read back a little-endian unsigned 32-bit value from the first four
bytes of a byte list. -/
def readU32 (b : List ℕ) : ℕ :=
  b.getD 0 0 + 256 * b.getD 1 0 + 65536 * b.getD 2 0 + 16777216 * b.getD 3 0

/-- One 50-byte STL record, with `enc3` standing for
`struct.pack` of three little-endian floats (12 bytes per vector). -/
noncomputable def stlRecord (enc3 : Vec3 → List ℕ) (pts : List Vec3) (t : Tri) : List ℕ :=
  let p0 := pts.getD t.1 zeroV
  let p1 := pts.getD t.2.1 zeroV
  let p2 := pts.getD t.2.2 zeroV
  enc3 (stlNormal p0 p1 p2) ++ enc3 p0 ++ enc3 p1 ++ enc3 p2 ++ u16le 0

/-- The full binary STL byte stream: 80 zero bytes, the 4-byte little-endian
triangle count, then one record per triangle. -/
noncomputable def stlBytes (enc3 : Vec3 → List ℕ) (pts : List Vec3) (tris : List Tri) : List ℕ :=
  List.replicate 80 0 ++ u32le tris.length ++ tris.flatMap (stlRecord enc3 pts)

/-- Newline, used to join the OBJ lines. -/
def nl : String := "\n"

/-- The OBJ vertex-line tag. -/
def vTag : String := "v "

/-- The OBJ face-line tag. -/
def fTag : String := "f "

/-- A single space. -/
def sp : String := " "

/-- The OBJ comment-line lead. -/
def objHeader : String := "# Exported from "

/-- The OBJ text output, with `fmtR` standing for Python float formatting. -/
def objText (fmtR : ℝ → String) (pp : String) (pts : List Vec3) (tris : List Tri) : String :=
  String.intercalate nl
    ((objHeader ++ pp) ::
      (pts.map (fun p => vTag ++ fmtR p.1 ++ sp ++ fmtR p.2.1 ++ sp ++ fmtR p.2.2) ++
        tris.map
          (fun t =>
            fTag ++ toString (t.1 + 1) ++ sp ++ toString (t.2.1 + 1) ++ sp ++
              toString (t.2.2 + 1))))

/-- The `export_mesh` success payload. -/
structure ExportOk where
  output : String
  format : String
  triangles : ℕ
  size_bytes : ℕ
  status : String
deriving DecidableEq, Repr

/-- Model of `export_mesh`: validate the prim is a Mesh, require non-absent and
non-empty geometry attributes (Python truthiness), triangulate, then write
OBJ text for format `obj` and binary STL for every other format string.
`enc3` and `fmtR` stand for the external float packing and formatting. -/
noncomputable def exportMesh (enc3 : Vec3 → List ℕ) (fmtR : ℝ → String)
    (st : Store) (path primPath output fmt : String) :
    Except Err ExportOk × Store :=
  match openStage st path with
  | .error e => (.error e, st)
  | .ok d =>
      match resolveP d primPath with
      | none => (.error (.notAMesh primPath), st)
      | some qpr =>
          if qpr.2.dat.typeName == meshTag then
            match qpr.2.dat.points, qpr.2.dat.faceVertexCounts, qpr.2.dat.faceVertexIndices with
            | some pts, some cnts, some idxs =>
                if pts.isEmpty || cnts.isEmpty || idxs.isEmpty then
                  (.error .emptyGeometry, st)
                else
                  let tris := triangulate cnts idxs
                  if fmt == objFmt then
                    let content := objText fmtR primPath pts tris
                    (.ok ⟨output, fmt, tris.length, content.utf8ByteSize, okStatus⟩,
                      st.put output (.txt content))
                  else
                    let bytes := stlBytes enc3 pts tris
                    (.ok ⟨output, fmt, tris.length, bytes.length, okStatus⟩,
                      st.put output (.bin bytes))
            | _, _, _ => (.error .emptyGeometry, st)
          else (.error (.notAMesh primPath), st)

example : triangulate [4] [0, 1, 2, 3] = [(0, 1, 2), (0, 2, 3)] := by decide

example : triangulate [3, 3] [0, 1, 2, 0, 2, 3] = [(0, 1, 2), (0, 2, 3)] := by decide

example : (triangulate [4, 4, 4, 4, 4, 4] (List.range 24)).length = 12 := by decide

/-! ## Concrete documents used in witnesses and counterexamples -/

/-- A prim name. -/
def worldName : String := "World"

/-- The Xform type tag. -/
def xformTag : String := "Xform"

/-- Prim data with a given name and type and nothing else authored. -/
def bareData (n ty : String) : PrimData :=
  { name := n, typeName := ty, points := none, faceVertexCounts := none,
    faceVertexIndices := none, variantSets := [], surfaceSources := [],
    xformable := true }

/-- A document holding a single untyped-Xform prim. -/
def oneDoc : Doc := ⟨[Prim.node (bareData worldName xformTag) []]⟩

/-! ## C6: hierarchy walker count vs scene aggregator prim count -/

mutual

theorem countNode_walk (par : String) (p : Prim) :
    countNode (walkPrim par p) = (preorderP par p).length := by
  cases p with
  | node dt cs =>
      rw [walkPrim, preorderP, countNode]
      rw [countList_walk (par ++ slash ++ dt.name) cs]
      simp [Nat.add_comm]

theorem countList_walk (par : String) (ps : List Prim) :
    countList (walkList par ps) = (preorderListP par ps).length := by
  cases ps with
  | nil => rfl
  | cons p rest =>
      rw [walkList, preorderListP, countList]
      rw [countNode_walk par p, countList_walk par rest]
      simp

end

theorem statsStep_prim_count (s : Stats) (p : Prim) :
    (statsStep s p).prim_count = s.prim_count + 1 := by
  unfold statsStep
  split
  · split
    · split <;> rfl
    · rfl
  · split <;> rfl

theorem foldl_statsStep_prim_count (l : List (String × Prim)) (s : Stats) :
    (l.foldl (fun a pp => statsStep a pp.2) s).prim_count = s.prim_count + l.length := by
  induction l generalizing s with
  | nil => simp
  | cons x xs ih => rw [List.foldl_cons, ih, statsStep_prim_count]; simp; omega

/-- C6 (amended): for every document, the number of nodes in the nested
`inspect_scene` output equals `scene_stats`' `prim_count` exactly — the
traversal behind `prim_count` already excludes the implicit root, so no
"minus one" correction applies. -/
theorem inspect_count_eq_prim_count (d : Doc) :
    countList (inspectScene d) = (sceneStats d).prim_count := by
  rw [inspectScene, sceneStats, foldl_statsStep_prim_count, countList_walk]
  simp [traverseP]

/-- C6 (counterexample): on a one-prim document the walker reports 1 node
and `prim_count` is 1, so the claimed count `prim_count - 1 = 0` is wrong. -/
theorem inspect_count_counterexample :
    countList (inspectScene oneDoc) = 1 ∧ (sceneStats oneDoc).prim_count = 1 ∧
      countList (inspectScene oneDoc) ≠ (sceneStats oneDoc).prim_count - 1 := by
  decide

/-! ## C3: fan triangulation -/

theorem fanAt_length (idxs : List ℕ) (idx c : ℕ) :
    (fanAt idxs idx c).length = c - 2 := by
  simp [fanAt]

theorem triAux_length (counts idxs : List ℕ) (idx : ℕ) :
    (triAux counts idxs idx).length = (counts.map (fun c => c - 2)).sum := by
  induction counts generalizing idx with
  | nil => rfl
  | cons c cs ih => simp [triAux, fanAt_length, ih]

theorem getD_take_drop (idxs : List ℕ) (idx c k : ℕ) (hk : k < c) :
    ((idxs.drop idx).take c).getD k 0 = idxs.getD (idx + k) 0 := by
  rw [List.getD_eq_getElem?_getD, List.getD_eq_getElem?_getD,
    List.getElem?_take, List.getElem?_drop]
  simp [hk]

theorem fanAt_eq_fanFace (idxs : List ℕ) (idx c : ℕ) (hc : 3 ≤ c)
    (hle : idx + c ≤ idxs.length) :
    fanAt idxs idx c = fanFace ((idxs.drop idx).take c) := by
  have hlen : ((idxs.drop idx).take c).length = c := by
    simp; omega
  rw [fanAt, fanFace, hlen]
  apply List.map_congr_left
  intro j hj
  rw [List.mem_range] at hj
  rw [getD_take_drop idxs idx c 0 (by omega),
    getD_take_drop idxs idx c (j + 1) (by omega),
    getD_take_drop idxs idx c (j + 2) (by omega)]
  simp [Nat.add_assoc]

theorem triAux_eq_slices (counts : List ℕ) (idxs : List ℕ) (idx : ℕ)
    (h3 : ∀ c ∈ counts, 3 ≤ c) (hle : idx + counts.sum ≤ idxs.length) :
    triAux counts idxs idx = (faceSlices counts (idxs.drop idx)).flatMap fanFace := by
  induction counts generalizing idx with
  | nil => rfl
  | cons c cs ih =>
      rw [List.sum_cons] at hle
      rw [triAux, faceSlices, List.flatMap_cons]
      congr 1
      · exact fanAt_eq_fanFace idxs idx c (h3 c (by simp)) (by omega)
      · rw [List.drop_drop]
        exact ih (idx + c) (fun x hx => h3 x (by simp [hx])) (by omega)

/-- C3: on a mesh satisfying the data-model invariants (every face-vertex
count at least 3 and the counts summing to the flat index list's length),
the triangulation is exactly the concatenation, face by face, of the fan
triangles `(v0, v1, v2), (v0, v2, v3), ...` of each face's own index list,
and the triangle count is the sum of `count - 2` over all faces. -/
theorem triangulate_fan (counts idxs : List ℕ)
    (h3 : ∀ c ∈ counts, 3 ≤ c) (hsum : counts.sum = idxs.length) :
    triangulate counts idxs = (faceSlices counts idxs).flatMap fanFace ∧
      (triangulate counts idxs).length = (counts.map (fun c => c - 2)).sum := by
  constructor
  · have h := triAux_eq_slices counts idxs 0 h3 (by omega)
    simpa [triangulate] using h
  · rw [triangulate, triAux_length]

/-- C3 (witness): the invariant hypotheses hold for one quad face over four
points, and the theorem instantiates there. -/
theorem triangulate_fan_witness :
    ((∀ c ∈ [4], 3 ≤ c) ∧ List.sum [4] = List.length [0, 1, 2, 3]) ∧
      (triangulate [4] [0, 1, 2, 3] = (faceSlices [4] [0, 1, 2, 3]).flatMap fanFace ∧
        (triangulate [4] [0, 1, 2, 3]).length = ([4].map (fun c => c - 2)).sum) :=
  ⟨⟨by decide, by decide⟩, triangulate_fan [4] [0, 1, 2, 3] (by decide) (by decide)⟩

/-! ## C2: binary STL byte layout -/

theorem readU32_u32le (n : ℕ) (h : n < 4294967296) (rest : List ℕ) :
    readU32 (u32le n ++ rest) = n := by
  simp [readU32, u32le, List.getD]
  omega

theorem stlRecord_length (enc3 : Vec3 → List ℕ) (henc : ∀ v, (enc3 v).length = 12)
    (pts : List Vec3) (t : Tri) :
    (stlRecord enc3 pts t).length = 50 := by
  simp [stlRecord, henc, u16le]

theorem sum_map_fifty (l : List Tri) : (l.map (fun _ => 50)).sum = 50 * l.length := by
  induction l with
  | nil => rfl
  | cons x xs ih => simp [ih]; ring

theorem take_len_append (a b : List ℕ) (n : ℕ) (h : a.length = n) : (a ++ b).take n = a := by
  subst h; exact List.take_left a b

theorem drop_len_append (a b : List ℕ) (n : ℕ) (h : a.length = n) : (a ++ b).drop n = b := by
  subst h; exact List.drop_left a b

/-- C2: for every 12-byte-per-vector float encoder and every triangle list
of representable length, the binary STL stream is exactly `84 + 50 * N`
bytes: an 80-byte zero header, then 4 little-endian bytes decoding back to
`N`, then the `N` 50-byte records, each made of a 12-byte normal, 36 bytes
of vertex positions, and a trailing 2-byte zero field. -/
theorem stl_layout (enc3 : Vec3 → List ℕ) (henc : ∀ v, (enc3 v).length = 12)
    (pts : List Vec3) (tris : List Tri) (hN : tris.length < 4294967296) :
    (stlBytes enc3 pts tris).length = 84 + 50 * tris.length ∧
      (stlBytes enc3 pts tris).take 80 = List.replicate 80 0 ∧
      readU32 ((stlBytes enc3 pts tris).drop 80) = tris.length ∧
      (stlBytes enc3 pts tris).drop 84 = tris.flatMap (stlRecord enc3 pts) ∧
      ∀ t ∈ tris,
        (stlRecord enc3 pts t).length = 50 ∧
          (stlRecord enc3 pts t).take 12 =
            enc3 (stlNormal (pts.getD t.1 zeroV) (pts.getD t.2.1 zeroV) (pts.getD t.2.2 zeroV)) ∧
          ((stlRecord enc3 pts t).drop 12).take 36 =
            enc3 (pts.getD t.1 zeroV) ++ enc3 (pts.getD t.2.1 zeroV) ++ enc3 (pts.getD t.2.2 zeroV) ∧
          (stlRecord enc3 pts t).drop 48 = [0, 0] := by
  have hrec : ∀ t, (stlRecord enc3 pts t).length = 50 := stlRecord_length enc3 henc pts
  refine ⟨?_, ?_, ?_, ?_, ?_⟩
  · simp [stlBytes, u32le, List.length_flatMap, Function.comp_def, hrec, sum_map_fifty]
    ring
  · rw [stlBytes, List.append_assoc]
    exact take_len_append _ _ 80 (by simp)
  · rw [stlBytes, List.append_assoc, drop_len_append _ _ 80 (by simp)]
    exact readU32_u32le tris.length hN _
  · rw [stlBytes]
    exact drop_len_append _ _ 84 (by simp [u32le])
  · intro t _
    refine ⟨hrec t, ?_, ?_, ?_⟩
    · simp only [stlRecord, List.append_assoc]
      exact take_len_append _ _ 12 (henc _)
    · simp only [stlRecord, List.append_assoc]
      rw [drop_len_append _ _ 12 (henc _)]
      rw [show enc3 (pts.getD t.1 zeroV) ++ (enc3 (pts.getD t.2.1 zeroV) ++
            (enc3 (pts.getD t.2.2 zeroV) ++ u16le 0)) =
          (enc3 (pts.getD t.1 zeroV) ++ (enc3 (pts.getD t.2.1 zeroV) ++
            enc3 (pts.getD t.2.2 zeroV))) ++ u16le 0 by simp]
      rw [take_len_append _ _ 36 (by simp [henc])]
    · simp only [stlRecord, List.append_assoc]
      rw [show enc3 (stlNormal (pts.getD t.1 zeroV) (pts.getD t.2.1 zeroV) (pts.getD t.2.2 zeroV)) ++
            (enc3 (pts.getD t.1 zeroV) ++ (enc3 (pts.getD t.2.1 zeroV) ++
              (enc3 (pts.getD t.2.2 zeroV) ++ u16le 0))) =
          (enc3 (stlNormal (pts.getD t.1 zeroV) (pts.getD t.2.1 zeroV) (pts.getD t.2.2 zeroV)) ++
            (enc3 (pts.getD t.1 zeroV) ++ (enc3 (pts.getD t.2.1 zeroV) ++
              enc3 (pts.getD t.2.2 zeroV)))) ++ u16le 0 by simp]
      rw [drop_len_append _ _ 48 (by simp [henc])]
      rfl

/-- A concrete 12-byte-per-vector encoder used in witnesses. -/
def zeroEnc : Vec3 → List ℕ := fun _ => List.replicate 12 0

/-- C2 (witness): the encoder hypothesis and count bound hold for the
constant encoder and a one-triangle list, and the layout theorem applies. -/
theorem stl_layout_witness :
    (∀ v, (zeroEnc v).length = 12) ∧ ([(0, 1, 2)] : List Tri).length < 4294967296 ∧
      (stlBytes zeroEnc [] ([(0, 1, 2)] : List Tri)).length = 84 + 50 * 1 ∧
      readU32 ((stlBytes zeroEnc [] ([(0, 1, 2)] : List Tri)).drop 80) = 1 :=
  ⟨fun v => by simp [zeroEnc], by decide,
    (stl_layout zeroEnc (fun v => by simp [zeroEnc]) [] [(0, 1, 2)] (by decide)).1,
    (stl_layout zeroEnc (fun v => by simp [zeroEnc]) [] [(0, 1, 2)] (by decide)).2.2.1⟩

/-! ## C8: face normals -/

theorem sqLen_nonneg (a : Vec3) : 0 ≤ sqLen a := by
  unfold sqLen; positivity

theorem len3_eq_zero_iff (a : Vec3) : len3 a = 0 ↔ a = zeroV := by
  unfold len3
  rw [Real.sqrt_eq_zero (sqLen_nonneg a)]
  unfold sqLen zeroV
  constructor
  · intro h
    have hx : a.1 ^ 2 = 0 := by nlinarith [sq_nonneg a.1, sq_nonneg a.2.1, sq_nonneg a.2.2]
    have hy : a.2.1 ^ 2 = 0 := by nlinarith [sq_nonneg a.1, sq_nonneg a.2.1, sq_nonneg a.2.2]
    have hz : a.2.2 ^ 2 = 0 := by nlinarith [sq_nonneg a.1, sq_nonneg a.2.1, sq_nonneg a.2.2]
    rw [pow_eq_zero_iff (by norm_num)] at hx hy hz
    exact Prod.ext hx (Prod.ext hy hz)
  · intro h
    rw [h]
    norm_num

theorem len3_nonneg (a : Vec3) : 0 ≤ len3 a := by
  unfold len3
  exact Real.sqrt_nonneg _

theorem len3_pos_iff (a : Vec3) : 0 < len3 a ↔ a ≠ zeroV := by
  constructor
  · intro h heq
    rw [(len3_eq_zero_iff a).mpr heq] at h
    exact lt_irrefl 0 h
  · intro h
    rcases lt_or_eq_of_le (len3_nonneg a) with hlt | heq
    · exact hlt
    · exact absurd ((len3_eq_zero_iff a).mp heq.symm) h

theorem len3_vscale (c : ℝ) (a : Vec3) : len3 (vscale c a) = |c| * len3 a := by
  unfold len3 vscale sqLen
  rw [show (c * a.1) ^ 2 + (c * a.2.1) ^ 2 + (c * a.2.2) ^ 2 =
      c ^ 2 * (a.1 ^ 2 + a.2.1 ^ 2 + a.2.2 ^ 2) by ring]
  rw [Real.sqrt_mul (sq_nonneg c), Real.sqrt_sq_eq_abs]

/-- C8: for any triangle corners, when the cross product of `(p1 - p0)` and
`(p2 - p0)` has zero length the written normal is the zero vector (no
division occurs), and when it is nonzero the written normal is that cross
product scaled by the reciprocal of its length and has unit length. -/
theorem stlNormal_spec (p0 p1 p2 : Vec3) :
    (cross (vsub p1 p0) (vsub p2 p0) = zeroV → stlNormal p0 p1 p2 = zeroV) ∧
      (cross (vsub p1 p0) (vsub p2 p0) ≠ zeroV →
        stlNormal p0 p1 p2 =
            vscale (1 / len3 (cross (vsub p1 p0) (vsub p2 p0)))
              (cross (vsub p1 p0) (vsub p2 p0)) ∧
          len3 (stlNormal p0 p1 p2) = 1) := by
  constructor
  · intro h
    unfold stlNormal
    rw [if_neg]
    · exact h
    · rw [h, (len3_eq_zero_iff zeroV).mpr rfl]
      exact lt_irrefl 0
  · intro h
    have hpos : 0 < len3 (cross (vsub p1 p0) (vsub p2 p0)) := (len3_pos_iff _).mpr h
    unfold stlNormal
    rw [if_pos hpos]
    refine ⟨rfl, ?_⟩
    rw [len3_vscale, abs_of_pos (by positivity), one_div,
      inv_mul_cancel₀ (ne_of_gt hpos)]

/-- C8 (witness): for the right-triangle corners `(0,0,0)`, `(1,0,0)`,
`(0,1,0)` the cross product is the nonzero `(0,0,1)` and the theorem yields
a unit-length written normal. -/
theorem stlNormal_spec_witness :
    cross (vsub ((1 : ℝ), (0 : ℝ), (0 : ℝ)) ((0 : ℝ), (0 : ℝ), (0 : ℝ)))
        (vsub ((0 : ℝ), (1 : ℝ), (0 : ℝ)) ((0 : ℝ), (0 : ℝ), (0 : ℝ))) ≠ zeroV ∧
      len3 (stlNormal ((0 : ℝ), (0 : ℝ), (0 : ℝ)) ((1 : ℝ), (0 : ℝ), (0 : ℝ))
        ((0 : ℝ), (1 : ℝ), (0 : ℝ))) = 1 := by
  have h : cross (vsub ((1 : ℝ), (0 : ℝ), (0 : ℝ)) ((0 : ℝ), (0 : ℝ), (0 : ℝ)))
      (vsub ((0 : ℝ), (1 : ℝ), (0 : ℝ)) ((0 : ℝ), (0 : ℝ), (0 : ℝ))) ≠ zeroV := by
    unfold cross vsub zeroV
    simp [Prod.ext_iff]
  exact ⟨h, ((stlNormal_spec ((0 : ℝ), (0 : ℝ), (0 : ℝ)) ((1 : ℝ), (0 : ℝ), (0 : ℝ))
    ((0 : ℝ), (1 : ℝ), (0 : ℝ))).2 h).2⟩

/-! ## C7 and C1: variant selection -/

/-- C7: with the document open, `set_variant` validates in order — a
non-resolving prim path yields `PrimNotFound`, an existing prim without the
named set yields `VariantSetNotFound`, a variant outside the set's options
yields `VariantNotFound` carrying the set's actual option list — and
otherwise returns the success payload echoing prim path, set name and the
newly selected variant. -/
theorem setVariant_validation (st : Store) (path primPath vsName v : String) (d : Doc)
    (hopen : openStage st path = .ok d) :
    (resolveP d primPath = none →
        setVariant st path primPath vsName v = (.error (.primNotFound primPath), st)) ∧
      (∀ q pr, resolveP d primPath = some (q, pr) →
        pr.dat.variantSets.find? (fun s => s.name == vsName) = none →
        setVariant st path primPath vsName v = (.error (.variantSetNotFound vsName), st)) ∧
      (∀ q pr vs, resolveP d primPath = some (q, pr) →
        pr.dat.variantSets.find? (fun s => s.name == vsName) = some vs →
        v ∉ vs.options →
        setVariant st path primPath vsName v = (.error (.variantNotFound v vs.options), st)) ∧
      (∀ q pr vs, resolveP d primPath = some (q, pr) →
        pr.dat.variantSets.find? (fun s => s.name == vsName) = some vs →
        v ∈ vs.options →
        setVariant st path primPath vsName v =
          (.ok { path := primPath, variant_set := vsName, selected := v, status := okStatus },
            st)) := by
  refine ⟨?_, ?_, ?_, ?_⟩
  · intro hres
    simp only [setVariant, hopen, hres]
  · intro q pr hres hfind
    simp only [setVariant, hopen, hres, hfind]
  · intro q pr vs hres hfind hmem
    simp only [setVariant, hopen, hres, hfind]
    rw [if_neg hmem]
  · intro q pr vs hres hfind hmem
    simp only [setVariant, hopen, hres, hfind]
    rw [if_pos hmem]

/-- The backing file name used by the concrete scenarios. -/
def scenePath : String := "scene.usda"

/-- A prim name for the variant scenario. -/
def carName : String := "Car"

/-- The variant scenario's prim path. -/
def carPath : String := "/Car"

/-- The variant-set name of the scenario. -/
def sizeSet : String := "size"

/-- A variant option. -/
def smallVar : String := "small"

/-- A variant option. -/
def largeVar : String := "large"

/-- A variant name outside the option list. -/
def hugeVar : String := "huge"

/-- The scenario's variant set: options small/large, `small` selected. -/
def sizeVSet : VSet :=
  { name := sizeSet, options := [smallVar, largeVar], selected := smallVar }

/-- A prim owning one variant set `size` with options small/large and
`small` currently selected. -/
def carPrim : Prim :=
  Prim.node { bareData carName xformTag with variantSets := [sizeVSet] } []

/-- The document holding `carPrim`. -/
def carDoc : Doc := ⟨[carPrim]⟩

/-- A store holding the variant scenario's document. -/
def carStore : Store := fun p => if p == scenePath then some (.usd carDoc) else none

/-- C7 (witness): on the concrete scenario, selecting a variant outside the
option list produces the `VariantNotFound` error carrying the actual
options. -/
theorem setVariant_validation_witness :
    openStage carStore scenePath = .ok carDoc ∧
      setVariant carStore scenePath carPath sizeSet hugeVar =
        (.error (.variantNotFound hugeVar [smallVar, largeVar]), carStore) :=
  ⟨by rfl,
    (setVariant_validation carStore scenePath carPath sizeSet hugeVar carDoc (by rfl)).2.2.1
      carPath carPrim sizeVSet (by rfl) (by rfl) (by decide)⟩

/-- C1 (code defect): `set_variant` reports success for a valid selection,
but the store comes back unchanged because the layer is never saved, so
`list_variants` reopening the same storage path still reports the old
selection `small` instead of the newly selected `large`. -/
theorem setVariant_not_durable :
    (setVariant carStore scenePath carPath sizeSet largeVar).1 =
        .ok ⟨carPath, sizeSet, largeVar, okStatus⟩ ∧
      (setVariant carStore scenePath carPath sizeSet largeVar).2 = carStore ∧
      listVariants (setVariant carStore scenePath carPath sizeSet largeVar).2 scenePath =
        .ok [{ path := carPath, variant_sets := [sizeVSet] }] :=
  ⟨by rfl, by rfl, by rfl⟩

/-! ## C4: get_transforms on a non-resolving explicit path -/

/-- A prim path that resolves nowhere in the scenario documents. -/
def missingPath : String := "/Missing"

/-- The constant-empty printed-matrix stub used in witnesses. -/
def emptyFn : String → String := fun _ => emptyStr

/-- A store holding the one-prim document. -/
def oneStore : Store := fun p => if p == scenePath then some (.usd oneDoc) else none

/-- C4 (counterexample): with a stored one-prim document, `get_transforms`
on the non-resolving path `/Missing` returns the success payload with an
empty list — it does not return any error payload. -/
theorem getTransforms_missing_counterexample :
    getTransforms emptyFn emptyFn oneStore scenePath (some missingPath) = .ok ⟨[]⟩ ∧
      ∀ e : Err, getTransforms emptyFn emptyFn oneStore scenePath (some missingPath) ≠
        .error e := by
  have hok : getTransforms emptyFn emptyFn oneStore scenePath (some missingPath) = .ok ⟨[]⟩ := by
    rfl
  refine ⟨hok, ?_⟩
  intro e h
  rw [hok] at h
  exact Except.noConfusion h

/-- C4 (amended): for every stored document and explicit prim path that does
not resolve, `get_transforms` succeeds with an empty `transforms` list (the
invalid prim is silently skipped) rather than failing with `PrimNotFound`. -/
theorem getTransforms_missing_empty (lt wt : String → String) (st : Store)
    (path pp : String) (d : Doc) (hopen : openStage st path = .ok d)
    (hres : resolveP d pp = none) :
    getTransforms lt wt st path (some pp) = .ok ⟨[]⟩ := by
  simp [getTransforms, hopen, hres]

/-- C4 (witness): the amended statement instantiated on the concrete store
and the path `/Missing`. -/
theorem getTransforms_missing_empty_witness :
    openStage oneStore scenePath = .ok oneDoc ∧ resolveP oneDoc missingPath = none ∧
      getTransforms emptyFn emptyFn oneStore scenePath (some missingPath) = .ok ⟨[]⟩ :=
  ⟨by rfl, by rfl,
    getTransforms_missing_empty emptyFn emptyFn oneStore scenePath missingPath oneDoc
      (by rfl) (by rfl)⟩

/-! ## C5: materials without a connected shader -/

/-- A material prim name. -/
def matName : String := "Mat"

/-- The material scenario's prim path. -/
def matPath : String := "/Mat"

/-- A Material-typed prim whose surface output has no connected source. -/
def matPrim : Prim := Prim.node (bareData matName materialTag) []

/-- The document holding the unconnected material. -/
def matDoc : Doc := ⟨[matPrim]⟩

/-- C5 (counterexample): the unconnected material is reported with the
`params` key absent (`none`), not with an empty parameter set. -/
theorem getMaterials_unconnected_counterexample :
    getMaterials matDoc = [{ path := matPath, shader := none, params := none }] ∧
      (getMaterials matDoc).map MatEntry.params ≠ [some []] := by
  constructor
  · decide
  · decide

/-- C5 (amended): every Material-typed prim with no connected shader source
still appears in the `get_materials` output — the enumeration does not fail
— but its entry omits the `shader` and `params` keys entirely rather than
reporting an empty parameter set. -/
theorem getMaterials_unconnected (d : Doc) (q : String) (pr : Prim)
    (hmem : (q, pr) ∈ traverseP d) (hty : pr.dat.typeName = materialTag)
    (hsrc : pr.dat.surfaceSources = []) :
    ({ path := q, shader := none, params := none } : MatEntry) ∈ getMaterials d := by
  unfold getMaterials
  refine List.mem_filterMap.mpr ⟨(q, pr), hmem, ?_⟩
  simp [hty, hsrc, matEntry]

/-- C5 (witness): the amended statement instantiated on the concrete
one-material document. -/
theorem getMaterials_unconnected_witness :
    (matPath, matPrim) ∈ traverseP matDoc ∧
      ({ path := matPath, shader := none, params := none } : MatEntry) ∈ getMaterials matDoc :=
  ⟨by rw [show traverseP matDoc = [(matPath, matPrim)] from rfl]; exact List.mem_singleton.mpr rfl,
    getMaterials_unconnected matDoc matPath matPrim
      (by rw [show traverseP matDoc = [(matPath, matPrim)] from rfl]
          exact List.mem_singleton.mpr rfl)
      rfl rfl⟩

/-! ## C9: non-obj formats produce binary output echoing the format string -/

/-- C9: for every format string other than exactly `obj`, a successful
`export_mesh` writes the binary STL byte stream to the output path, and the
success payload carries the caller's format string unchanged. -/
theorem exportMesh_binary_default (enc3 : Vec3 → List ℕ) (fmtR : ℝ → String) (st : Store)
    (path pp output fmt : String) (d : Doc) (q : String) (pr : Prim)
    (pts : List Vec3) (cnts idxs : List ℕ)
    (hopen : openStage st path = .ok d) (hres : resolveP d pp = some (q, pr))
    (hty : pr.dat.typeName = meshTag)
    (hp : pr.dat.points = some pts) (hc : pr.dat.faceVertexCounts = some cnts)
    (hi : pr.dat.faceVertexIndices = some idxs)
    (hpne : pts ≠ []) (hcne : cnts ≠ []) (hine : idxs ≠ [])
    (hfmt : fmt ≠ objFmt) :
    exportMesh enc3 fmtR st path pp output fmt =
      (.ok ⟨output, fmt, (triangulate cnts idxs).length,
          (stlBytes enc3 pts (triangulate cnts idxs)).length, okStatus⟩,
        st.put output (.bin (stlBytes enc3 pts (triangulate cnts idxs)))) := by
  have hbeq : (fmt == objFmt) = false := by
    simp [hfmt]
  have htybeq : (pr.dat.typeName == meshTag) = true := by
    simp [hty]
  have h1 : pts.isEmpty = false := by
    cases pts with
    | nil => exact absurd rfl hpne
    | cons a as => rfl
  have h2 : cnts.isEmpty = false := by
    cases cnts with
    | nil => exact absurd rfl hcne
    | cons a as => rfl
  have h3 : idxs.isEmpty = false := by
    cases idxs with
    | nil => exact absurd rfl hine
    | cons a as => rfl
  simp only [exportMesh, hopen, hres, htybeq, if_true, hp, hc, hi, h1, h2, h3, hbeq]
  simp

/-! ## C10: export errors never touch the output file -/

/-- C10: whenever export validation fails — the prim path does not resolve,
resolves to a non-Mesh prim, or any of the three geometry attributes is
absent or empty — `export_mesh` returns an error payload and the returned
store is the input store itself: no file is opened or written, so existing
content at the output path is untouched. -/
theorem exportMesh_error_no_write (enc3 : Vec3 → List ℕ) (fmtR : ℝ → String) (st : Store)
    (path pp output fmt : String) (d : Doc) (hopen : openStage st path = .ok d)
    (hbad : resolveP d pp = none ∨
      ∃ q pr, resolveP d pp = some (q, pr) ∧
        (pr.dat.typeName ≠ meshTag ∨ pr.dat.points = none ∨
          pr.dat.faceVertexCounts = none ∨ pr.dat.faceVertexIndices = none ∨
          pr.dat.points = some [] ∨ pr.dat.faceVertexCounts = some [] ∨
          pr.dat.faceVertexIndices = some [])) :
    ∃ e, exportMesh enc3 fmtR st path pp output fmt = (.error e, st) := by
  rcases hbad with hres | ⟨q, pr, hres, hcase⟩
  · exact ⟨.notAMesh pp, by simp only [exportMesh, hopen, hres]⟩
  · by_cases hty : pr.dat.typeName = meshTag
    · refine ⟨.emptyGeometry, ?_⟩
      have htybeq : (pr.dat.typeName == meshTag) = true := by simp [hty]
      rcases hcase with h | h | h | h | h | h | h
      · exact absurd hty h
      all_goals
        rcases hp : pr.dat.points with _ | pts <;>
          rcases hc : pr.dat.faceVertexCounts with _ | cnts <;>
            rcases hi : pr.dat.faceVertexIndices with _ | idxs <;>
              simp_all [exportMesh, hopen, hres, htybeq]
    · have htybeq : (pr.dat.typeName == meshTag) = false := by simp [hty]
      exact ⟨.notAMesh pp, by simp only [exportMesh, hopen, hres, htybeq, if_false,
        Bool.false_eq_true]⟩

/-! ## Concrete export scenario for the C9 and C10 witnesses -/

/-- The mesh prim name of the export scenario. -/
def triName : String := "Tri"

/-- The export scenario's prim path. -/
def triPath : String := "/Tri"

/-- The export output path. -/
def outPath : String := "out.stl"

/-- The three points of the witness triangle. -/
def triPts : List Vec3 :=
  [((0 : ℝ), (0 : ℝ), (0 : ℝ)), ((1 : ℝ), (0 : ℝ), (0 : ℝ)), ((0 : ℝ), (1 : ℝ), (0 : ℝ))]

/-- A Mesh prim holding one triangular face. -/
def meshPrim : Prim :=
  Prim.node
    { bareData triName meshTag with
        points := some triPts,
        faceVertexCounts := some [3],
        faceVertexIndices := some [0, 1, 2] }
    []

/-- The document holding the one-triangle mesh. -/
def meshDoc : Doc := ⟨[meshPrim]⟩

/-- A store holding the export scenario's document. -/
def meshStore : Store := fun p => if p == scenePath then some (.usd meshDoc) else none

/-- The constant float formatter used in witnesses. -/
def emptyFmtR : ℝ → String := fun _ => emptyStr

/-- C9 (witness): exporting the concrete triangle with the non-`obj` format
string `stl` hits every hypothesis and writes the binary stream, echoing
`stl` in the payload. -/
theorem exportMesh_binary_default_witness :
    stlFmt ≠ objFmt ∧
      exportMesh zeroEnc emptyFmtR meshStore scenePath triPath outPath stlFmt =
        (.ok ⟨outPath, stlFmt, (triangulate [3] [0, 1, 2]).length,
            (stlBytes zeroEnc triPts (triangulate [3] [0, 1, 2])).length, okStatus⟩,
          Store.put meshStore outPath (.bin (stlBytes zeroEnc triPts (triangulate [3] [0, 1, 2])))) :=
  ⟨by decide,
    exportMesh_binary_default zeroEnc emptyFmtR meshStore scenePath triPath outPath stlFmt
      meshDoc triPath meshPrim triPts [3] [0, 1, 2] (by rfl) (by rfl) (by rfl) (by rfl)
      (by rfl) (by rfl) (by simp [triPts]) (by simp) (by simp) (by decide)⟩

/-- C10 (witness): attempting to export the non-resolving path `/Missing`
returns an error payload and leaves the store untouched. -/
theorem exportMesh_error_no_write_witness :
    openStage oneStore scenePath = .ok oneDoc ∧ resolveP oneDoc missingPath = none ∧
      ∃ e, exportMesh zeroEnc emptyFmtR oneStore scenePath missingPath outPath stlFmt =
        (.error e, oneStore) :=
  ⟨by rfl, by rfl,
    exportMesh_error_no_write zeroEnc emptyFmtR oneStore scenePath missingPath outPath stlFmt
      oneDoc (by rfl) (Or.inl (by rfl))⟩

end OpenUSDMCP
